import Mathlib

/- Verification of the social-card generation pipeline of
`scripts/generate_social_cards.py` (berlin.pydata.org repository).

Python strings are modelled as `List Char` (a Python `str` is a sequence of
Unicode code points).  Font metrics (`font.getbbox`), PIL resampling kernels
and network behaviour are external effects and are modelled as explicit
function parameters or as explicit state records; everything written in the
script itself is translated directly. -/

namespace SocialCards

/- ### Character classes

`string.ascii_letters`, `string.digits`, `string.whitespace` and
`string.punctuation` from Python's `string` module, written by code point. -/

def ascii_letter (c : Char) : Bool :=
  (97 ≤ c.toNat && c.toNat ≤ 122) || (65 ≤ c.toNat && c.toNat ≤ 90)

def ascii_digit (c : Char) : Bool :=
  48 ≤ c.toNat && c.toNat ≤ 57

/- `string.whitespace` is exactly the six characters " \t\n\r\x0b\x0c". -/
def string_whitespace (c : Char) : Bool :=
  [32, 9, 10, 13, 11, 12].contains c.toNat

/- `string.punctuation`: the 32 printable ASCII characters that are neither
alphanumeric nor the space. -/
def ascii_punctuation (c : Char) : Bool :=
  (33 ≤ c.toNat && c.toNat ≤ 47) || (58 ≤ c.toNat && c.toNat ≤ 64) ||
  (91 ≤ c.toNat && c.toNat ≤ 96) || (123 ≤ c.toNat && c.toNat ≤ 126)

/- The whitespace set of Python `str` methods (`str.split()`, `str.strip()`,
`str.isspace`) and of the regex class `\s` on `str` patterns: the ASCII
whitespace characters together with the Unicode whitespace code points. -/
def py_ws (c : Char) : Bool :=
  [9, 10, 11, 12, 13, 28, 29, 30, 31, 32, 133, 160, 5760,
   8192, 8193, 8194, 8195, 8196, 8197, 8198, 8199, 8200, 8201, 8202,
   8232, 8233, 8239, 8287, 12288].contains c.toNat

/- `CardGenerator._is_ok` (generate_social_cards.py lines 186-197). -/
def is_ok (c : Char) : Bool :=
  ascii_letter c || ascii_digit c || string_whitespace c || ascii_punctuation c

/- `CardGenerator._clean_text` (lines 199-201). -/
def clean_text (text : List Char) : List Char :=
  text.filter is_ok

/- ### Python `str.split()` and `" ".join`

`text.split()` (no separator): the list of maximal runs of non-whitespace
characters, empty runs discarded. -/
def py_split_aux : List Char → List Char → List (List Char)
  | [], acc => if acc.isEmpty then [] else [acc.reverse]
  | c :: rest, acc =>
    if py_ws c then
      if acc.isEmpty then py_split_aux rest [] else acc.reverse :: py_split_aux rest []
    else
      py_split_aux rest (c :: acc)

def py_split (s : List Char) : List (List Char) :=
  py_split_aux s []

/- `" ".join(words)`. -/
def join_words : List (List Char) → List Char
  | [] => []
  | [t] => t
  | t :: ts => t ++ ' ' :: join_words ts

/- ### `CardGenerator._wrap_text` (lines 161-184)

`width_of` models `font.getbbox(test_line)[2] - font.getbbox(test_line)[0]`:
the pixel width the font assigns to a string.  The `for word in words` loop
carries the accumulated `lines` and the `current_line` word list; the final
`if current_line: lines.append(...)` is the base case. -/
def wrap_text_loop (width_of : List Char → Int) (max_width : Int) :
    List (List Char) → List (List Char) → List (List Char) → List (List Char)
  | [], lines, current_line =>
    if current_line.isEmpty then lines else lines ++ [join_words current_line]
  | word :: rest, lines, current_line =>
    if width_of (join_words (current_line ++ [word])) ≤ max_width then
      wrap_text_loop width_of max_width rest lines (current_line ++ [word])
    else if current_line.isEmpty then
      wrap_text_loop width_of max_width rest lines [word]
    else
      wrap_text_loop width_of max_width rest (lines ++ [join_words current_line]) [word]

def wrap_text (width_of : List Char → Int) (max_width : Int) (text : List Char) :
    List (List Char) :=
  wrap_text_loop width_of max_width (py_split text) [] []

/- ### Facts about `py_split` and `join_words` -/

/- ### The greedy-wrap loop invariant

A committed line is the `" ".join` of a non-empty block of consecutive words,
and is either a single word or measured within the budget at the moment its
last word was appended. -/
def good_chunk (width_of : List Char → Int) (mw : Int) (c : List (List Char)) : Prop :=
  c ≠ [] ∧ (c.length = 1 ∨ width_of (join_words c) ≤ mw)

def py_strip (s : List Char) : List Char :=
  ((s.dropWhile py_ws).reverse.dropWhile py_ws).reverse

def hex_digit_val (c : Char) : Option Nat :=
  if 48 ≤ c.toNat ∧ c.toNat ≤ 57 then some (c.toNat - 48)
  else if 97 ≤ c.toNat ∧ c.toNat ≤ 102 then some (c.toNat - 87)
  else if 65 ≤ c.toNat ∧ c.toNat ≤ 70 then some (c.toNat - 55)
  else none

def hex_digits_val : List Char → Nat → Option Nat
  | [], acc => some acc
  | c :: rest, acc =>
    match hex_digit_val c with
    | some v => hex_digits_val rest (16 * acc + v)
    | none => none

def py_int_hex (s : List Char) : Option Int :=
  let s1 := py_strip s
  let signed : Bool × List Char :=
    match s1 with
    | c :: rest =>
      if c = '-' then (true, rest) else if c = '+' then (false, rest) else (false, s1)
    | [] => (false, s1)
  let body : List Char :=
    match signed.2 with
    | z :: x :: rest => if z = '0' ∧ (x = 'x' ∨ x = 'X') then rest else signed.2
    | _ => signed.2
  match body with
  | [] => none
  | _ => (hex_digits_val body 0).map fun v => if signed.1 then -(v : Int) else (v : Int)

def hex_to_rgb (hex_color : List Char) : Option (Int × Int × Int) :=
  let h : List Char :=
    match hex_color with
    | c :: rest => if c = '#' then rest else hex_color
    | [] => hex_color
  match py_int_hex ((h.drop 0).take 2), py_int_hex ((h.drop 2).take 2),
        py_int_hex ((h.drop 4).take 2) with
  | some r, some g, some b => some (r, g, b)
  | _, _, _ => none

/- ### `CardGenerator._draw_text_smart` (lines 209-262)

The PIL backend is modelled by an oracle `ok text embedded_color` saying
whether `draw.text` succeeds on that string with that flag; each `except`
moves to the next strategy.  The final `draw.text((x, y), "[Text]", ...)` of
strategy 5 is not guarded by a `try`, so its failure escapes to the caller
(`raisedAtFinal`).  A `ValueError` escaping `_hex_to_rgb` before the cascade
is `colorError`. -/

inductive PyFill
  | rgbTuple (r g b : Int)
  | colorStr (s : List Char)

def fill_to_rgb : PyFill → Option (Int × Int × Int)
  | .rgbTuple r g b => some (r, g, b)
  | .colorStr s => hex_to_rgb s

/- The regex `[^\w\s\-.,!?:;()[\]{}"\'\\/]` of strategy 3 (its input is
already ASCII-cleaned, so `\w` is modelled on the ASCII range). -/
def word_char (c : Char) : Bool :=
  ascii_letter c || ascii_digit c || c.toNat == 95

def strategy3_keep (c : Char) : Bool :=
  word_char c || py_ws c ||
  [45, 46, 44, 33, 63, 58, 59, 40, 41, 91, 93, 123, 125, 34, 39, 92, 47].contains c.toNat

def strategy3_sub (s : List Char) : List Char :=
  s.map fun c => if strategy3_keep c then c else ' '

/- `re.sub(r"\s+", " ", ...)`: each maximal whitespace run becomes one space. -/
def collapse_ws_aux : List Char → Bool → List Char
  | [], _ => []
  | c :: rest, in_run =>
    if py_ws c then
      if in_run then collapse_ws_aux rest true else ' ' :: collapse_ws_aux rest true
    else c :: collapse_ws_aux rest false

def collapse_ws (s : List Char) : List Char := collapse_ws_aux s false

def placeholder_special_chars : List Char := "[Content with special characters]".toList

def placeholder_special : List Char := "[Special content]".toList

def placeholder_text : List Char := "[Text]".toList

inductive DrawOutcome
  | drawn (t : List Char)
  | colorError
  | raisedAtFinal
  deriving DecidableEq

def draw_text_smart (ok : List Char → Bool → Bool) (text : List Char)
    (fill : PyFill) : DrawOutcome :=
  let text := clean_text text
  match fill_to_rgb fill with
  | none => .colorError
  | some _ =>
    if ok text true then .drawn text
    else if ok text false then .drawn text
    else
      let text_only := py_strip (collapse_ws (strategy3_sub text))
      let t3 := if text_only.isEmpty then placeholder_special_chars else text_only
      if ok t3 false then .drawn t3
      else
        let ascii_text := py_strip (text.filter fun c => c.toNat ≤ 127)
        let t4 := if ascii_text.isEmpty then placeholder_special else ascii_text
        if ok t4 false then .drawn t4
        else if ok placeholder_text false then .drawn placeholder_text
        else .raisedAtFinal

inductive CacheState (Image : Type)
  | absent
  | good (img : Image)
  | corrupt
  deriving DecidableEq

inductive NetResult (Bytes : Type)
  | success (body : Bytes)
  | httpError
  | connError
  | timeout
  deriving DecidableEq

structure PhotoWorld (Image Bytes : Type) where
  cache : CacheState Image
  net : NetResult Bytes
  deriving DecidableEq

/- The `try` block of lines 106-125: download, decode, flatten, write the
JPEG cache file, return the image; any failure is caught and yields `None`. -/
def fetch_fresh {Image Bytes : Type} (decode : Bytes → Option Image)
    (flatten jpeg : Image → Image) (w : PhotoWorld Image Bytes) :
    Option Image × PhotoWorld Image Bytes :=
  match w.net with
  | .success body =>
    match decode body with
    | some img =>
      let img2 := flatten img
      (some img2, { w with cache := .good (jpeg img2) })
    | none => (none, w)
  | _ => (none, w)

def download_speaker_photo {Image Bytes : Type} (decode : Bytes → Option Image)
    (flatten jpeg : Image → Image) (w : PhotoWorld Image Bytes) :
    Option Image × PhotoWorld Image Bytes :=
  match w.cache with
  | .good img => (some img, w)
  | .corrupt => fetch_fresh decode flatten jpeg { w with cache := .absent }
  | .absent => fetch_fresh decode flatten jpeg w

inductive PMode
  | RGB
  | RGBA
  | L
  | P
  deriving DecidableEq

abbrev Pix := Nat × Nat × Nat × Nat

structure PImage where
  width : Nat
  height : Nat
  mode : PMode
  px : Nat → Nat → Pix

def alpha_of (p : Pix) : Nat := p.2.2.2

/- `photo.convert("RGBA")` for a non-RGBA source: colour channels carried
over (palette decoding abstracted into the channels), alpha fully opaque. -/
def pil_convert_rgba (img : PImage) : PImage :=
  { img with
    mode := .RGBA,
    px := fun x y => ((img.px x y).1, (img.px x y).2.1, (img.px x y).2.2.1, 255) }

/- `img.thumbnail((bw, bh), LANCZOS)`: a no-op when the bound already
contains the image, otherwise an aspect-preserving downscale to the rounded
dimensions `thumb_dims` picks. -/
def pil_thumbnail (thumb_dims : Nat → Nat → Nat → Nat → Nat × Nat)
    (resample_px : PImage → Nat → Nat → Nat → Nat → Pix)
    (img : PImage) (bw bh : Nat) : PImage :=
  if bw ≥ img.width ∧ bh ≥ img.height then img
  else
    let d := thumb_dims img.width img.height bw bh
    { width := d.1, height := d.2, mode := img.mode,
      px := fun x y => resample_px img d.1 d.2 x y }

def pil_crop (img : PImage) (left top right bottom : Nat) : PImage :=
  { width := right - left, height := bottom - top, mode := img.mode,
    px := fun x y => img.px (x + left) (y + top) }

def pil_resize (resample_px : PImage → Nat → Nat → Nat → Nat → Pix)
    (img : PImage) (w h : Nat) : PImage :=
  { width := w, height := h, mode := img.mode,
    px := fun x y => resample_px img w h x y }

/- `ImageDraw.Draw(mask).ellipse((0, 0, size, size), fill=255)` on a black
"L" image: a pixel is filled when its centre lies within the ellipse
inscribed in the bounding box, i.e. when
(x + 1/2 - size/2)² + (y + 1/2 - size/2)² ≤ (size/2)². -/
def in_circle (size x y : Nat) : Bool :=
  (2 * (x : Int) + 1 - size) ^ 2 + (2 * (y : Int) + 1 - size) ^ 2 ≤ (size : Int) ^ 2

def circle_mask_val (size x y : Nat) : Nat :=
  if in_circle size x y then 255 else 0

def circle_mask (size : Nat) : PImage :=
  { width := size, height := size, mode := .L,
    px := fun x y => (circle_mask_val size x y, 0, 0, 0) }

def pil_new (mode : PMode) (w h : Nat) (fill : Pix) : PImage :=
  { width := w, height := h, mode := mode, px := fun _ _ => fill }

/- `dst.paste(src, (x0, y0))` with no mask argument: inside the pasted
extent the source pixel replaces the destination pixel, alpha included. -/
def pil_paste (dst src : PImage) (x0 y0 : Nat) : PImage :=
  { dst with
    px := fun x y =>
      if x0 ≤ x ∧ x < x0 + src.width ∧ y0 ≤ y ∧ y < y0 + src.height then
        src.px (x - x0) (y - y0)
      else dst.px x y }

/- `img.putalpha(mask)`: the alpha band is replaced by the "L" mask. -/
def pil_putalpha (img mask : PImage) : PImage :=
  { img with
    mode := .RGBA,
    px := fun x y =>
      ((img.px x y).1, (img.px x y).2.1, (img.px x y).2.2.1, (mask.px x y).1) }

def process_speaker_photo (thumb_dims : Nat → Nat → Nat → Nat → Nat × Nat)
    (resample_px : PImage → Nat → Nat → Nat → Nat → Pix)
    (photo : PImage) (size : Nat) : PImage :=
  let photo := if photo.mode ≠ .RGBA then pil_convert_rgba photo else photo
  let photo := pil_thumbnail thumb_dims resample_px photo (size * 2) (size * 2)
  let w := photo.width
  let h := photo.height
  let photo :=
    if w ≠ h then
      let m := min w h
      pil_crop photo ((w - m) / 2) ((h - m) / 2) ((w - m) / 2 + m) ((h - m) / 2 + m)
    else photo
  let photo := pil_resize resample_px photo size size
  let mask := circle_mask size
  let output := pil_new .RGBA size size (0, 0, 0, 0)
  let output := pil_paste output photo 0 0
  pil_putalpha output mask

def CARD_WIDTH : Nat := 1200

def CARD_HEIGHT : Nat := 630

/- `full_width = CARD_WIDTH - 80` (line 321). -/
def full_width : Nat := CARD_WIDTH - 80

/- `line_height = 60` (line 322). -/
def line_height : Nat := 60

structure Speaker where
  id : List Char
  name : List Char
  picture : Option (List Char)

structure Session where
  id : List Char
  title : List Char
  speaker_ids : List (List Char)

/- ### Avatar sizing (lines 298-304)

`int(height * 0.495 * 0.67)` and `int(height * 0.495)`.  The float products
are modelled by exact rational arithmetic (floor is natural division); at the
canvas height 630 this agrees with the float evaluation (311.84999... → 311
and 208.9395 → 208 — no floor boundary is crossed). -/
def speaker_size_for (height n_photos : Nat) : Nat :=
  if n_photos = 2 then height * 495 * 67 / 100000 else height * 495 / 1000

/- ### Title layout (lines 319-345) -/

/- `title_block_height = len(title_lines[:5]) * line_height` (line 328). -/
def title_block_height (title_lines : List (List Char)) : Nat :=
  (title_lines.take 5).length * line_height

/- `title_y_start = 540 - title_block_height` (line 332). -/
def title_y_start (title_lines : List (List Char)) : Int :=
  540 - title_block_height title_lines

/- The `for i, line in enumerate(title_lines[:5])` loop (lines 335-345): the
drawn lines with their y positions, stepping by `line_height`. -/
def draw_title_lines : List (List Char) → Int → List (List Char × Int)
  | [], _ => []
  | l :: rest, y => (l, y) :: draw_title_lines rest (y + 60)

def title_draws (title_lines : List (List Char)) : List (List Char × Int) :=
  draw_title_lines (title_lines.take 5) (title_y_start title_lines)

/- ### The composer: `create_session_card` (lines 264-367),
`create_default_card` (369-385) and `generate_all_cards` (387-414)

External collaborators, fixed for one run: whether the template file exists
and its decoded raster; the speakers dictionary; the per-URL outcome of
`_download_speaker_photo` (whose own state machine is `PhotoWorld` above);
the title font's width metric; and PIL's resampling internals. -/
structure ComposeEnv where
  template_exists : Bool
  template : PImage
  speakers : List Char → Option Speaker
  fetch_photo : List Char → Option PImage
  title_width : List Char → Int
  thumb_dims : Nat → Nat → Nat → Nat → Nat × Nat
  resample_px : PImage → Nat → Nat → Nat → Nat → Pix

def cfp_url_base : List Char := "https://cfp.pydata.org/".toList

inductive CardError
  | templateMissing
  deriving DecidableEq

/- The composed card: what `create_session_card` decides before the raster is
saved.  `photo_positions` records the paste loop of lines 313-317: x starts
at `speaker_margin_x = 40` and advances by `speaker_size + 20`, y is
`speaker_margin_y = 50`. -/
structure Card where
  width : Nat
  height : Nat
  photo_count : Nat
  speaker_size : Nat
  photos : List PImage
  photo_positions : List (Nat × Nat)
  title_lines : List (List Char)
  title_draw_list : List (List Char × Int)
  speakers_text : Option (List Char)

def photo_positions_for (n size : Nat) : List (Nat × Nat) :=
  (List.range n).map fun i => (40 + i * (size + 20), 50)

/- `" • ".join(speaker_names)` (line 355). -/
def join_bullet : List (List Char) → List Char
  | [] => []
  | [t] => t
  | t :: ts => t ++ " • ".toList ++ join_bullet ts

/- `create_session_card`.  The speaker-photo loop (lines 287-296) collects at
most two photos: the speaker must be in the dictionary, `speaker.picture`
must be truthy (neither `None` nor the empty string), and the download must
return an image.  The collected (photo, speaker_id) pairs only ever have
their photo used, so only the photo is kept. -/
def create_session_card (env : ComposeEnv) (s : Session) :
    Except CardError Card :=
  if env.template_exists = false then .error .templateMissing
  else
    let width := env.template.width
    let height := env.template.height
    let speaker_photos := (s.speaker_ids.take 2).filterMap fun sid =>
      match env.speakers sid with
      | none => none
      | some sp =>
        match sp.picture with
        | none => none
        | some pic =>
          if pic.isEmpty then none
          else env.fetch_photo (cfp_url_base ++ pic)
    let speaker_size := speaker_size_for height speaker_photos.length
    let processed := speaker_photos.map fun ph =>
      process_speaker_photo env.thumb_dims env.resample_px ph speaker_size
    let title_lines := wrap_text env.title_width (full_width : Int) s.title
    let names := (s.speaker_ids.take 3).filterMap fun sid =>
      (env.speakers sid).map Speaker.name
    let speakers_text :=
      if s.speaker_ids.isEmpty then none
      else if names.isEmpty then none
      else some (join_bullet names)
    .ok { width := width, height := height,
          photo_count := speaker_photos.length,
          speaker_size := speaker_size,
          photos := processed,
          photo_positions := photo_positions_for processed.length speaker_size,
          title_lines := title_lines,
          title_draw_list := title_draws title_lines,
          speakers_text := speakers_text }

/- `create_default_card`: the template as-is when it exists, otherwise a
fresh solid-colour 1200 × 630 card with a centred fixed text; never fails. -/
def create_default_card (env : ComposeEnv) : Card :=
  if env.template_exists then
    { width := env.template.width, height := env.template.height,
      photo_count := 0, speaker_size := 0, photos := [], photo_positions := [],
      title_lines := [], title_draw_list := [], speakers_text := none }
  else
    { width := CARD_WIDTH, height := CARD_HEIGHT,
      photo_count := 0, speaker_size := 0, photos := [], photo_positions := [],
      title_lines := ["PyData Berlin 2025".toList], title_draw_list := [],
      speakers_text := none }

def png_ext : List Char := ".png".toList

def default_card_name : List Char := "social_card_default.png".toList

/- One run: for each session, filename written (`{session.id}.png` on
success) or nothing (exception caught and logged, loop continues); then the
default card is written (its creation never fails). -/
structure RunResult where
  per_session : List (List Char × Option (List Char))
  default_card : Option (List Char)

def generate_all_cards (env : ComposeEnv) (sessions : List Session) :
    RunResult :=
  { per_session := sessions.map fun s =>
      match create_session_card env s with
      | .ok _ => (s.id, some (s.id ++ png_ext))
      | .error _ => (s.id, none),
    default_card := some default_card_name }

def no_template_env : ComposeEnv :=
  { template_exists := false,
    template := { width := 0, height := 0, mode := .RGB, px := fun _ _ => (0, 0, 0, 0) },
    speakers := fun _ => none,
    fetch_photo := fun _ => none,
    title_width := fun _ => 0,
    thumb_dims := fun _ _ _ _ => (0, 0),
    resample_px := fun _ _ _ _ _ => (0, 0, 0, 0) }

def session_a : Session :=
  { id := "talk-a".toList, title := "First talk".toList, speaker_ids := [] }

def session_b : Session :=
  { id := "talk-b".toList, title := "Second talk".toList, speaker_ids := [] }

theorem join_words_nil : join_words [] = [] := rfl

theorem join_words_single (t : List Char) : join_words [t] = t := rfl

theorem join_words_cons2 (t t' : List Char) (ts : List (List Char)) :
    join_words (t :: t' :: ts) = t ++ ' ' :: join_words (t' :: ts) := rfl

theorem py_split_aux_tokens :
    ∀ (s acc : List Char), (∀ c ∈ acc, py_ws c = false) →
      ∀ t ∈ py_split_aux s acc, t ≠ [] ∧ ∀ c ∈ t, py_ws c = false := by
  intro s
  induction s with
  | nil =>
    intro acc hacc t ht
    cases acc with
    | nil => simp [py_split_aux] at ht
    | cons a l =>
      simp [py_split_aux] at ht
      subst ht
      refine ⟨by simp, ?_⟩
      intro c hc
      apply hacc
      simp at hc ⊢
      tauto
  | cons c s' ih =>
    intro acc hacc t ht
    by_cases hc : py_ws c
    · cases acc with
      | nil =>
        simp [py_split_aux, hc] at ht
        exact ih [] (by simp) t ht
      | cons a l =>
        simp [py_split_aux, hc] at ht
        rcases ht with ht | ht
        · subst ht
          refine ⟨by simp, ?_⟩
          intro d hd
          apply hacc
          simp at hd ⊢
          tauto
        · exact ih [] (by simp) t ht
    · simp only [py_split_aux, hc, Bool.false_eq_true, if_false] at ht
      refine ih (c :: acc) ?_ t ht
      intro d hd
      rcases List.mem_cons.mp hd with hd | hd
      · subst hd; exact Bool.eq_false_iff.mpr hc
      · exact hacc d hd

theorem py_split_tokens (s : List Char) :
    ∀ t ∈ py_split s, t ≠ [] ∧ ∀ c ∈ t, py_ws c = false :=
  py_split_aux_tokens s [] (by simp)

theorem py_split_aux_append :
    ∀ (t rest acc : List Char), (∀ c ∈ t, py_ws c = false) →
      py_split_aux (t ++ rest) acc = py_split_aux rest (t.reverse ++ acc) := by
  intro t
  induction t with
  | nil => intro rest acc _; simp
  | cons c t' ih =>
    intro rest acc h
    have hc : py_ws c = false := h c (by simp)
    have ht' : ∀ d ∈ t', py_ws d = false := fun d hd => h d (List.mem_cons_of_mem c hd)
    simp only [List.cons_append, py_split_aux, hc, Bool.false_eq_true, if_false]
    rw [show List.append t' rest = t' ++ rest from rfl, ih rest (c :: acc) ht']
    simp [List.append_assoc]

theorem py_split_join :
    ∀ (chunks : List (List Char)),
      (∀ t ∈ chunks, t ≠ [] ∧ ∀ c ∈ t, py_ws c = false) →
      py_split (join_words chunks) = chunks := by
  intro chunks
  induction chunks with
  | nil => intro _; rfl
  | cons t cs ih =>
    intro h
    have ht : t ≠ [] ∧ ∀ c ∈ t, py_ws c = false := h t (by simp)
    have hne : t.reverse.isEmpty = false := by
      cases hrev : t.reverse with
      | nil => exact absurd (by simpa using congrArg List.reverse hrev) ht.1
      | cons a l => rfl
    cases cs with
    | nil =>
      rw [join_words_single]
      unfold py_split
      have happ := py_split_aux_append t [] [] ht.2
      simp only [List.append_nil] at happ
      rw [happ]
      simp [py_split_aux, hne]
    | cons t' cs' =>
      have hrest : ∀ u ∈ t' :: cs', u ≠ [] ∧ ∀ c ∈ u, py_ws c = false :=
        fun u hu => h u (List.mem_cons_of_mem t hu)
      rw [join_words_cons2]
      unfold py_split
      rw [py_split_aux_append t (' ' :: join_words (t' :: cs')) [] ht.2]
      have hsp : py_ws ' ' = true := by decide
      have hih := ih hrest
      unfold py_split at hih
      simp [py_split_aux, hsp, hne, hih]

theorem wrap_text_loop_chunks (width_of : List Char → Int) (mw : Int) :
    ∀ (words lines current_line : List (List Char)),
      (current_line = [] ∨ good_chunk width_of mw current_line) →
      ∃ chunks : List (List (List Char)),
        wrap_text_loop width_of mw words lines current_line
          = lines ++ chunks.map join_words ∧
        chunks.flatten = current_line ++ words ∧
        ∀ c ∈ chunks, good_chunk width_of mw c := by
  intro words
  induction words with
  | nil =>
    intro lines cur h
    cases cur with
    | nil => exact ⟨[], by simp [wrap_text_loop], by simp, by simp⟩
    | cons a l =>
      have hg : good_chunk width_of mw (a :: l) := h.resolve_left (by simp)
      refine ⟨[a :: l], by simp [wrap_text_loop], by simp, ?_⟩
      intro c hc
      rw [List.mem_singleton] at hc
      subst hc
      exact hg
  | cons word rest ih =>
    intro lines cur h
    by_cases hw : width_of (join_words (cur ++ [word])) ≤ mw
    · obtain ⟨chunks, he, hf, hgood⟩ :=
        ih lines (cur ++ [word]) (Or.inr ⟨by simp, Or.inr hw⟩)
      refine ⟨chunks, ?_, ?_, hgood⟩
      · simp only [wrap_text_loop, if_pos hw]
        exact he
      · rw [hf]
        simp
    · cases cur with
      | nil =>
        obtain ⟨chunks, he, hf, hgood⟩ :=
          ih lines [word] (Or.inr ⟨by simp, Or.inl rfl⟩)
        refine ⟨chunks, ?_, ?_, hgood⟩
        · simp only [wrap_text_loop, if_neg hw, List.isEmpty_nil, if_true]
          exact he
        · rw [hf]; simp
      | cons a l =>
        have hg : good_chunk width_of mw (a :: l) := h.resolve_left (by simp)
        obtain ⟨chunks, he, hf, hgood⟩ :=
          ih (lines ++ [join_words (a :: l)]) [word] (Or.inr ⟨by simp, Or.inl rfl⟩)
        refine ⟨(a :: l) :: chunks, ?_, ?_, ?_⟩
        · simp only [wrap_text_loop, if_neg hw, List.isEmpty_cons, Bool.false_eq_true,
            if_false]
          rw [he]
          simp
        · simp only [List.flatten_cons, hf]
          simp
        · intro c hc
          rcases List.mem_cons.mp hc with hc | hc
          · subst hc; exact hg
          · exact hgood c hc

/-- C2: every line returned by `_wrap_text` has measured width at most the
budget, except that a line may be a single word of the input text (which is
then allowed to overflow); no word is ever split across lines. -/
theorem wrap_text_line_within_budget
    (width_of : List Char → Int) (max_width : Int) (text : List Char)
    (line : List Char) (hmem : line ∈ wrap_text width_of max_width text) :
    width_of line ≤ max_width ∨ line ∈ py_split text := by
  obtain ⟨chunks, he, hf, hgood⟩ :=
    wrap_text_loop_chunks width_of max_width (py_split text) [] [] (Or.inl rfl)
  rw [wrap_text, he] at hmem
  simp only [List.nil_append] at hmem
  obtain ⟨c, hc, hline⟩ := List.mem_map.mp hmem
  obtain ⟨hne, hdisj⟩ := hgood c hc
  rcases hdisj with hlen | hle
  · right
    obtain ⟨t, rfl⟩ := List.length_eq_one.mp hlen
    rw [← hline, join_words_single]
    have hmemf : t ∈ chunks.flatten := List.mem_flatten.mpr ⟨[t], hc, by simp⟩
    rw [hf] at hmemf
    simpa using hmemf
  · left
    rw [← hline]
    exact hle

/-- Witness for C2: the theorem applied to a concrete width function (string
length), budget 10 and text "hello world again", whose first produced line is
"hello". -/
theorem wrap_text_line_within_budget_witness :
    (("hello".toList.length : Int) ≤ 10 ∨
      "hello".toList ∈ py_split "hello world again".toList) :=
  wrap_text_line_within_budget (fun l => (l.length : Int)) 10
    "hello world again".toList "hello".toList (by decide)

/-- C9: `_wrap_text` preserves the whitespace-split tokens of its input
exactly and in order: the lines are space-joins of consecutive non-empty
blocks of the input's words, and re-splitting all lines and concatenating
yields exactly the input's words. -/
theorem wrap_text_tokens_exact
    (width_of : List Char → Int) (max_width : Int) (text : List Char) :
    ∃ chunks : List (List (List Char)),
      wrap_text width_of max_width text = chunks.map join_words ∧
      chunks.flatten = py_split text ∧
      (∀ c ∈ chunks, c ≠ []) ∧
      ((wrap_text width_of max_width text).map py_split).flatten
        = py_split text := by
  obtain ⟨chunks, he, hf, hgood⟩ :=
    wrap_text_loop_chunks width_of max_width (py_split text) [] [] (Or.inl rfl)
  have he' : wrap_text width_of max_width text = chunks.map join_words := by
    rw [wrap_text, he]
    simp
  have hf' : chunks.flatten = py_split text := by simpa using hf
  refine ⟨chunks, he', hf', fun c hc => (hgood c hc).1, ?_⟩
  rw [he', List.map_map]
  have hmap : chunks.map (py_split ∘ join_words) = chunks.map id := by
    apply List.map_congr_left
    intro c hc
    simp only [Function.comp_apply, id_eq]
    apply py_split_join
    intro t htc
    have hmemf : t ∈ chunks.flatten := List.mem_flatten.mpr ⟨c, hc, htc⟩
    rw [hf'] at hmemf
    exact py_split_tokens text t hmemf
  rw [hmap, List.map_id]
  exact hf'

/- ### `CardGenerator._hex_to_rgb` (lines 203-207)

`int(hex_color[i:i+2], 16)` for `i in (0, 2, 4)`.  `int(s, 16)` strips
whitespace, allows one sign and an optional `0x`/`0X` prefix, then requires at
least one hexadecimal digit; anything else raises `ValueError`, modelled as
`none`.  (Python additionally allows single underscores between digits; no
input analysed here contains one.) -/

/-- C10: the hex-colour conversion runs before the try/except cascade begins,
so the never-raises guarantee excludes colour parsing: for the string fills
"white" and "#fff" (whose parse fails), `_draw_text_smart` raises before any
draw attempt is made, whatever the drawing backend would have done. -/
theorem hex_conversion_precedes_draw (ok : List Char → Bool → Bool)
    (text : List Char) :
    draw_text_smart ok text (.colorStr "white".toList) = .colorError ∧
    draw_text_smart ok text (.colorStr "#fff".toList) = .colorError ∧
    hex_to_rgb "white".toList = none ∧ hex_to_rgb "#fff".toList = none :=
  ⟨rfl, rfl, rfl, rfl⟩

/- ### Helper lemmas for the renderer's character guarantees -/

theorem clean_text_is_ok {text : List Char} :
    ∀ c ∈ clean_text text, is_ok c = true := by
  intro c hc
  exact (List.mem_filter.mp hc).2

theorem py_strip_subset {c : Char} {s : List Char} (h : c ∈ py_strip s) :
    c ∈ s := by
  unfold py_strip at h
  rw [List.mem_reverse] at h
  have h2 : c ∈ (s.dropWhile py_ws).reverse :=
    List.Sublist.subset (List.dropWhile_sublist _) h
  rw [List.mem_reverse] at h2
  exact List.Sublist.subset (List.dropWhile_sublist _) h2

theorem collapse_ws_aux_subset :
    ∀ (s : List Char) (b : Bool) (c : Char),
      c ∈ collapse_ws_aux s b → c = ' ' ∨ c ∈ s := by
  intro s
  induction s with
  | nil => intro b c h; simp [collapse_ws_aux] at h
  | cons d rest ih =>
    intro b c h
    by_cases hd : py_ws d
    · cases b with
      | true =>
        simp only [collapse_ws_aux, hd, if_true] at h
        rcases ih true c h with h1 | h1
        · exact Or.inl h1
        · exact Or.inr (List.mem_cons_of_mem d h1)
      | false =>
        simp only [collapse_ws_aux, hd, if_true] at h
        rcases List.mem_cons.mp h with h1 | h1
        · exact Or.inl h1
        · rcases ih true c h1 with h2 | h2
          · exact Or.inl h2
          · exact Or.inr (List.mem_cons_of_mem d h2)
    · simp only [collapse_ws_aux, hd, Bool.false_eq_true, if_false] at h
      rcases List.mem_cons.mp h with h1 | h1
      · exact Or.inr (h1 ▸ List.mem_cons_self d rest)
      · rcases ih false c h1 with h2 | h2
        · exact Or.inl h2
        · exact Or.inr (List.mem_cons_of_mem d h2)

theorem strategy3_sub_subset {c : Char} {s : List Char}
    (h : c ∈ strategy3_sub s) : c = ' ' ∨ c ∈ s := by
  obtain ⟨a, ha, hc⟩ := List.mem_map.mp h
  by_cases hk : strategy3_keep a
  · right
    rw [← hc]
    simpa [hk] using ha
  · left
    rw [← hc]
    simp [hk]

theorem strategy3_chain_is_ok {text : List Char}
    (hok : ∀ c ∈ text, is_ok c = true) :
    ∀ c ∈ py_strip (collapse_ws (strategy3_sub text)), is_ok c = true := by
  intro c hc
  have h1 := py_strip_subset hc
  rcases collapse_ws_aux_subset _ false c h1 with h2 | h2
  · subst h2; decide
  · rcases strategy3_sub_subset h2 with h3 | h3
    · subst h3; decide
    · exact hok c h3

theorem ascii_filter_is_ok {text : List Char}
    (hok : ∀ c ∈ text, is_ok c = true) :
    ∀ c ∈ py_strip (text.filter fun c => c.toNat ≤ 127), is_ok c = true := by
  intro c hc
  exact hok c (List.mem_filter.mp (py_strip_subset hc)).1

theorem placeholder_special_chars_is_ok :
    ∀ c ∈ placeholder_special_chars, is_ok c = true := by decide

theorem placeholder_special_is_ok :
    ∀ c ∈ placeholder_special, is_ok c = true := by decide

theorem placeholder_text_is_ok :
    ∀ c ∈ placeholder_text, is_ok c = true := by decide

/-- Counterexample to C4 as stated: with a backend that succeeds on every draw
call, `_draw_text_smart` still raises when the colour argument is the string
"white" — the exception escapes before any draw attempt. -/
theorem draw_text_smart_color_raises_cex :
    draw_text_smart (fun _ _ => true) "Hello".toList (.colorStr "white".toList)
      = .colorError := rfl

/-- C4 amended: for every text string (ASCII, emoji, combining marks, empty)
and every colour argument that converts — an RGB triple or a parseable hex
string — and provided the backend's final fallback draw call does not itself
fail, `_draw_text_smart` never raises and issues a draw call whose string
(the cleaned text, a reduced residue, or a fixed placeholder) consists only
of allowed ASCII characters; the first draw attempt is of the ASCII-cleaned
text. -/
theorem draw_text_smart_resilient
    (ok : List Char → Bool → Bool) (text : List Char) (fill : PyFill)
    (rgb : Int × Int × Int)
    (hfill : fill_to_rgb fill = some rgb)
    (hfinal : ok placeholder_text false = true) :
    (∃ t, draw_text_smart ok text fill = .drawn t ∧ ∀ c ∈ t, is_ok c = true) ∧
    (ok (clean_text text) true = true →
      draw_text_smart ok text fill = .drawn (clean_text text)) := by
  have hclean : ∀ c ∈ clean_text text, is_ok c = true := clean_text_is_ok
  constructor
  · simp only [draw_text_smart, hfill]
    by_cases h1 : ok (clean_text text) true
    · exact ⟨clean_text text, by simp [h1], hclean⟩
    by_cases h2 : ok (clean_text text) false
    · exact ⟨clean_text text, by simp [h1, h2], hclean⟩
    by_cases h3 : ok (if py_strip (collapse_ws (strategy3_sub
        (clean_text text))) = [] then placeholder_special_chars
        else py_strip (collapse_ws (strategy3_sub (clean_text text)))) false
    · refine ⟨if py_strip (collapse_ws (strategy3_sub (clean_text text))) = []
        then placeholder_special_chars
        else py_strip (collapse_ws (strategy3_sub (clean_text text))),
        by simp [h1, h2, h3], ?_⟩
      by_cases he : py_strip (collapse_ws (strategy3_sub (clean_text text))) = []
      · simpa [he] using placeholder_special_chars_is_ok
      · simpa [he] using strategy3_chain_is_ok hclean
    by_cases h4 : ok (if py_strip ((clean_text text).filter
        fun c => c.toNat ≤ 127) = [] then placeholder_special
        else py_strip ((clean_text text).filter fun c => c.toNat ≤ 127)) false
    · refine ⟨if py_strip ((clean_text text).filter
        fun c => c.toNat ≤ 127) = [] then placeholder_special
        else py_strip ((clean_text text).filter fun c => c.toNat ≤ 127),
        by simp [h1, h2, h3, h4], ?_⟩
      by_cases he : py_strip ((clean_text text).filter
          fun c => c.toNat ≤ 127) = []
      · simpa [he] using placeholder_special_is_ok
      · simpa [he] using ascii_filter_is_ok hclean
    · exact ⟨placeholder_text, by simp [h1, h2, h3, h4, hfinal],
        placeholder_text_is_ok⟩
  · intro h1
    simp [draw_text_smart, hfill, h1]

/-- Witness for C4 (amended): a backend that always succeeds, a text with an
accent and an emoji, and a direct RGB triple. -/
theorem draw_text_smart_resilient_witness :
    (∃ t, draw_text_smart (fun _ _ => true) "Héllo 🙂!".toList
        (.rgbTuple 255 255 255) = .drawn t ∧ ∀ c ∈ t, is_ok c = true) ∧
    (true = true →
      draw_text_smart (fun _ _ => true) "Héllo 🙂!".toList
        (.rgbTuple 255 255 255) = .drawn (clean_text "Héllo 🙂!".toList)) :=
  draw_text_smart_resilient (fun _ _ => true) "Héllo 🙂!".toList
    (.rgbTuple 255 255 255) (255, 255, 255) rfl rfl

/- ### `CardGenerator._download_speaker_photo` (lines 92-125)

The filesystem and network are modelled as explicit state for one URL: the
cache file at `CACHE_DIR/{sha256(url)[:16]}.jpg` (absent; readable, in which
case `Image.open` yields an image; or corrupt, in which case `Image.open`
raises and the entry is unlinked), and the network (`requests.get` plus
`raise_for_status`: either a 2xx body or an HTTP error / connection error /
timeout, each of which raises and is caught).  `decode` models
`Image.open(BytesIO(content))` on the response body; `flatten` models the
flattening of RGBA/P-mode images onto an opaque background (identity for
other modes); `jpeg` models re-encoding to JPEG at quality 95 followed by
decoding — the image a later cache hit on the written file yields. -/

/-- C7: `_download_speaker_photo` always returns a decoded image or `None`
and never raises to its caller: a readable cache entry is returned as-is, and
the result is `None` exactly when no readable cache entry exists and either
the fetch fails (HTTP error, connection error, timeout) or the downloaded
bytes do not decode — every such failure degrades to the "no photo" result. -/
theorem download_speaker_photo_total
    {Image Bytes : Type} (decode : Bytes → Option Image)
    (flatten jpeg : Image → Image) (w : PhotoWorld Image Bytes) :
    ((download_speaker_photo decode flatten jpeg w).1 = none ↔
      (∀ i, w.cache ≠ .good i) ∧
      (∀ b, w.net = .success b → decode b = none)) ∧
    (∀ i, w.cache = .good i →
      download_speaker_photo decode flatten jpeg w = (some i, w)) := by
  obtain ⟨c, n⟩ := w
  constructor
  · cases c with
    | good img => simp [download_speaker_photo]
    | absent =>
      cases n with
      | success b =>
        cases hd : decode b with
        | some img => simp [download_speaker_photo, fetch_fresh, hd]
        | none => simp [download_speaker_photo, fetch_fresh, hd]
      | httpError => simp [download_speaker_photo, fetch_fresh]
      | connError => simp [download_speaker_photo, fetch_fresh]
      | timeout => simp [download_speaker_photo, fetch_fresh]
    | corrupt =>
      cases n with
      | success b =>
        cases hd : decode b with
        | some img => simp [download_speaker_photo, fetch_fresh, hd]
        | none => simp [download_speaker_photo, fetch_fresh, hd]
      | httpError => simp [download_speaker_photo, fetch_fresh]
      | connError => simp [download_speaker_photo, fetch_fresh]
      | timeout => simp [download_speaker_photo, fetch_fresh]
  · intro i hi
    simp only [CacheState.good.injEq] at hi
    cases c with
    | good img =>
      simp only [CacheState.good.injEq] at hi
      subst hi
      rfl
    | absent => simp at hi
    | corrupt => simp at hi

/-- Counterexample to C3 as stated: the cache write is a lossy JPEG
re-encode, so a cache miss followed by a cache hit need not be
byte-identical.  With image bytes modelled as `Nat`, decoding as `some`, and
the JPEG encode-decode round trip `Nat.succ` (any non-identity round trip),
the first request for the URL returns image `0` and the second returns `1`. -/
theorem download_not_byte_identical_cex :
    (@download_speaker_photo Nat Nat some id Nat.succ ⟨.absent, .success 0⟩).1 ≠
      (download_speaker_photo some id Nat.succ
        (download_speaker_photo some id Nat.succ ⟨.absent, .success 0⟩).2).1 := by
  decide

/-- C3 amended: two requests that are both served from a readable cache entry
return identical images and leave the state unchanged; when the first request
misses and downloads, the second request returns the cached JPEG
re-encode-decode of the first result (identical only when that round trip
preserves the image); and a corrupted cache entry is deleted and handled
exactly as a cache miss — a fresh network fetch. -/
theorem download_cache_semantics
    {Image Bytes : Type} (decode : Bytes → Option Image)
    (flatten jpeg : Image → Image) :
    (∀ (w : PhotoWorld Image Bytes) i, w.cache = .good i →
      download_speaker_photo decode flatten jpeg w = (some i, w)) ∧
    (∀ (w : PhotoWorld Image Bytes),
      download_speaker_photo decode flatten jpeg { w with cache := .corrupt }
        = download_speaker_photo decode flatten jpeg { w with cache := .absent }) ∧
    (∀ (w : PhotoWorld Image Bytes) b img, w.cache = .absent →
      w.net = .success b → decode b = some img →
      (download_speaker_photo decode flatten jpeg w).1 = some (flatten img) ∧
      (download_speaker_photo decode flatten jpeg
          (download_speaker_photo decode flatten jpeg w).2).1
        = some (jpeg (flatten img))) := by
  refine ⟨?_, fun w => rfl, ?_⟩
  · rintro ⟨c, n⟩ i hi
    simp only at hi
    subst hi
    rfl
  · rintro ⟨c, n⟩ b img hc hn hd
    simp only at hc hn
    subst hc
    subst hn
    constructor
    · simp [download_speaker_photo, fetch_fresh, hd]
    · simp [download_speaker_photo, fetch_fresh, hd]

/- ### PIL image model and `CardGenerator._process_speaker_photo` (127-159)

An image is its dimensions, its mode and its pixel grid; a pixel is an
(r, g, b, a) quadruple, the first component carrying the value of an "L"
(8-bit luminance) image.  The LANCZOS resampling kernel and the rounded
dimensions `Image.thumbnail` picks are PIL internals, abstracted as the
parameters `resample_px` and `thumb_dims`; nothing proved below depends on
them. -/

/-- C8: for every decoded input image, of any dimensions and mode, and every
target diameter, `_process_speaker_photo` returns an RGBA image of exactly
size × size pixels whose alpha channel is exactly the inscribed-circle mask —
in particular every pixel outside the inscribed circle is fully transparent —
and the source image's own alpha is discarded: the output alpha does not
depend on the input image or on the resampling kernel at all. -/
theorem process_speaker_photo_spec
    (thumb_dims : Nat → Nat → Nat → Nat → Nat × Nat)
    (resample_px : PImage → Nat → Nat → Nat → Nat → Pix)
    (photo : PImage) (size : Nat) (x y : Nat) :
    (process_speaker_photo thumb_dims resample_px photo size).width = size ∧
    (process_speaker_photo thumb_dims resample_px photo size).height = size ∧
    (process_speaker_photo thumb_dims resample_px photo size).mode = .RGBA ∧
    alpha_of ((process_speaker_photo thumb_dims resample_px photo size).px x y)
      = circle_mask_val size x y ∧
    (in_circle size x y = false →
      alpha_of ((process_speaker_photo thumb_dims resample_px photo size).px x y)
        = 0) := by
  refine ⟨rfl, rfl, rfl, rfl, fun h => ?_⟩
  show circle_mask_val size x y = 0
  simp [circle_mask_val, h]

/- ### Module constants (lines 13-28) and the data model (`models.py`) -/

/-- C5: at the fixed canvas height 630, the avatar diameter computed for
exactly two fetched photos, int(630 × 0.495 × 0.67) = 208, is strictly
smaller than the diameter computed for zero or one fetched photo,
int(630 × 0.495) = 311. -/
theorem speaker_size_two_photos_smaller :
    speaker_size_for 630 2 < speaker_size_for 630 1 ∧
    speaker_size_for 630 2 < speaker_size_for 630 0 ∧
    speaker_size_for 630 2 = 208 ∧ speaker_size_for 630 1 = 311 ∧
    speaker_size_for 630 0 = 311 := by decide

theorem draw_title_lines_map_fst :
    ∀ (xs : List (List Char)) (y : Int),
      (draw_title_lines xs y).map Prod.fst = xs := by
  intro xs
  induction xs with
  | nil => intro y; rfl
  | cons l rest ih =>
    intro y
    simp [draw_title_lines, ih]

theorem draw_title_lines_get :
    ∀ (xs : List (List Char)) (y : Int) (i : Nat),
      (draw_title_lines xs y)[i]? = xs[i]?.map fun l => (l, y + 60 * (i : Int)) := by
  intro xs
  induction xs with
  | nil => intro y i; simp [draw_title_lines]
  | cons l rest ih =>
    intro y i
    cases i with
    | zero => simp [draw_title_lines]
    | succ j =>
      simp only [draw_title_lines, List.getElem?_cons_succ]
      rw [ih (y + 60) j]
      cases hrj : rest[j]? with
      | none => rfl
      | some l' =>
        have h60 : y + 60 + 60 * (j : Int) = y + 60 * (((j + 1 : Nat)) : Int) := by
          push_cast
          ring
        simp [h60]

/-- C6: for every title text (under any font width metric), the composer
draws exactly the first min(number of wrapped lines, 5) wrapped lines; the
title block height is min(number of lines, 5) × 60; the i-th drawn line sits
at y = (540 − block_height) + 60·i, so the first line is at
y = 540 − block_height and the block's bottom edge lands exactly at y = 540;
lines beyond the fifth are silently dropped. -/
theorem title_layout_spec (width_metric : List Char → Int) (title : List Char) :
    (title_draws (wrap_text width_metric (full_width : Int) title)).map Prod.fst
      = (wrap_text width_metric (full_width : Int) title).take 5 ∧
    title_block_height (wrap_text width_metric (full_width : Int) title)
      = min (wrap_text width_metric (full_width : Int) title).length 5 * 60 ∧
    title_y_start (wrap_text width_metric (full_width : Int) title)
      + title_block_height (wrap_text width_metric (full_width : Int) title)
      = 540 ∧
    ∀ i : Nat, (title_draws (wrap_text width_metric (full_width : Int) title))[i]?
      = ((wrap_text width_metric (full_width : Int) title).take 5)[i]?.map
          fun l =>
            (l, title_y_start (wrap_text width_metric (full_width : Int) title)
              + 60 * (i : Int)) := by
  refine ⟨draw_title_lines_map_fst _ _, ?_, ?_, fun i => draw_title_lines_get _ _ i⟩
  · rw [title_block_height, List.length_take, Nat.min_comm]
    rfl
  · rw [title_y_start]
    omega

/- ### A concrete no-template run for the claims about the missing-template
behaviour -/

/-- Counterexample to C1 as stated: with the template missing and two
sessions in the run, `generate_all_cards` does continue past the first
session's failure — both sessions are attempted (each failing, neither
producing a file) and the default card is still written afterwards, so the
run does not abort at the first raised error. -/
theorem run_continues_past_template_missing_cex :
    (generate_all_cards no_template_env [session_a, session_b]).per_session
      = [(session_a.id, none), (session_b.id, none)] ∧
    (generate_all_cards no_template_env [session_a, session_b]).default_card
      = some default_card_name :=
  ⟨rfl, rfl⟩

/-- C1 amended: when the background template file is missing,
`create_session_card` raises for every session, so no `{session.id}.png` is
written for any session; however `generate_all_cards` catches each
per-session exception and continues through the entire session list (every
session is attempted, in order), and the default card — built by the
no-template fallback of `create_default_card` — is still written at the
end. -/
theorem template_missing_behaviour (env : ComposeEnv) (sessions : List Session)
    (h : env.template_exists = false) :
    (∀ s : Session, create_session_card env s = .error .templateMissing) ∧
    (∀ e ∈ (generate_all_cards env sessions).per_session, e.2 = none) ∧
    (generate_all_cards env sessions).per_session.map Prod.fst
      = sessions.map Session.id ∧
    (generate_all_cards env sessions).default_card = some default_card_name := by
  have hc : ∀ s : Session, create_session_card env s = .error .templateMissing := by
    intro s
    simp [create_session_card, h]
  refine ⟨hc, ?_, ?_, rfl⟩
  · intro e he
    simp only [generate_all_cards, List.mem_map] at he
    obtain ⟨s, _, he⟩ := he
    rw [← he]
    simp [hc s]
  · simp only [generate_all_cards, List.map_map]
    apply List.map_congr_left
    intro s _
    simp only [Function.comp_apply]
    cases hcs : create_session_card env s <;> simp

/-- Witness for C1 (amended): the concrete no-template environment and a
two-session run. -/
theorem template_missing_behaviour_witness :
    create_session_card no_template_env session_a = .error .templateMissing ∧
    (generate_all_cards no_template_env [session_a, session_b]).default_card
      = some default_card_name :=
  ⟨(template_missing_behaviour no_template_env [session_a, session_b] rfl).1
      session_a,
   (template_missing_behaviour no_template_env [session_a, session_b] rfl).2.2.2⟩

end SocialCards
